import Mathlib

/-!
Verification development for the smtp-relay repository.

The Rust sources are shallowly embedded: Rust `String`/`&str` values are
modelled as `List Char` (Rust `char` and Lean `Char` are both Unicode scalar
values), and the handful of byte-level operations (UTF-8 encoding, base64)
are modelled explicitly as `List Nat` byte lists.  Rust's `to_uppercase` /
`to_lowercase` / `trim` / `split_whitespace` are Unicode-aware; they are
modelled here with their ASCII behaviour (`Char.toUpper`, `Char.toLower`,
`Char.isWhitespace`), which coincides with the Rust functions on every string
compared against in the sources (all patterns involved are ASCII).
Byte-index slicing such as `parts[1][5..]` is modelled as `List.drop 5`,
which agrees with the source whenever the sliced-off prefix is ASCII (it is:
the guard requires the uppercased token to start with the ASCII `"FROM:"`).
-/

namespace SmtpRelay

set_option maxRecDepth 20000

/-- Rust `str::to_uppercase` (ASCII model, see header comment). -/
def upper (s : List Char) : List Char := s.map Char.toUpper

/-- Rust `str::to_lowercase` (ASCII model, see header comment). -/
def lower (s : List Char) : List Char := s.map Char.toLower

/-- Rust `str::trim_end` (ASCII-whitespace model). -/
def trimEndWs (s : List Char) : List Char :=
  (s.reverse.dropWhile Char.isWhitespace).reverse

/-- Rust `str::trim` (ASCII-whitespace model). -/
def trim (s : List Char) : List Char :=
  trimEndWs (s.dropWhile Char.isWhitespace)

/-- Helper for `splitWhitespace`: accumulates the current token (reversed). -/
def splitWsAux : List Char → List Char → List (List Char)
  | [], acc => if acc = [] then [] else [acc.reverse]
  | c :: rest, acc =>
    if c.isWhitespace then
      if acc = [] then splitWsAux rest []
      else acc.reverse :: splitWsAux rest []
    else splitWsAux rest (c :: acc)

/-- Rust `str::split_whitespace`: whitespace-separated tokens, no empties. -/
def splitWhitespace (s : List Char) : List (List Char) := splitWsAux s []

/-- `startsWith s pat` is Rust `s.starts_with(pat)`. -/
def startsWith : List Char → List Char → Bool
  | _, [] => true
  | [], _ :: _ => false
  | c :: s, p :: ps => c = p && startsWith s ps

/-- `containsSub s pat` is Rust `s.contains(pat)` (substring search). -/
def containsSub : List Char → List Char → Bool
  | [], pat => pat = []
  | c :: rest, pat => startsWith (c :: rest) pat || containsSub rest pat

/-- Index of the first occurrence of `pat` in `s`, if any (Rust `str::find`). -/
def findSub (pat : List Char) : List Char → Option Nat
  | [] => if pat = [] then some 0 else none
  | c :: rest =>
    if startsWith (c :: rest) pat then some 0
    else (findSub pat rest).map (· + 1)

/-- Fuelled worker for `splitOnSub`. -/
def splitOnSubFuel : Nat → List Char → List Char → List (List Char)
  | 0, s, _ => [s]
  | Nat.succ fuel, s, pat =>
    match findSub pat s with
    | none => [s]
    | some i => s.take i :: splitOnSubFuel fuel (s.drop (i + pat.length)) pat

/-- Rust `str::split(pat)` for a non-empty literal pattern. -/
def splitOnSub (s pat : List Char) : List (List Char) :=
  splitOnSubFuel (s.length + 1) s pat

/-- Rust `iterator.nth(1)`: the second element, if any. -/
def nth1 {α : Type} : List α → Option α
  | _ :: x :: _ => some x
  | _ => none

/-- Rust `s.splitn(2, c).nth(1)`: everything after the first `c`, if present. -/
def afterFirstChar (c : Char) (l : List Char) : Option (List Char) :=
  match findSub [c] l with
  | some i => some (l.drop (i + 1))
  | none => none

/-- Fuelled worker for `trimStartMatchesStr`. -/
def trimStartMatchesFuel : Nat → List Char → List Char → List Char
  | 0, s, _ => s
  | Nat.succ fuel, s, pat =>
    if pat ≠ [] ∧ startsWith s pat then
      trimStartMatchesFuel fuel (s.drop pat.length) pat
    else s

/-- Rust `str::trim_start_matches(pat)` for a string pattern: removes every
leading occurrence of `pat` (case-sensitively, exactly as the source). -/
def trimStartMatchesStr (s pat : List Char) : List Char :=
  trimStartMatchesFuel (s.length + 1) s pat

/-- Rust `.trim_matches(q)` for a single-char pattern: strips all leading and
trailing occurrences of `q`. -/
def trimMatchesChar (q : Char) (s : List Char) : List Char :=
  ((s.dropWhile (fun c => c = q)).reverse.dropWhile (fun c => c = q)).reverse

/-- The source idiom `.trim_matches(doubleQuote).trim_matches(singleQuote)`. -/
def trimMatchesQuotes (s : List Char) : List Char :=
  trimMatchesChar (Char.ofNat 39) (trimMatchesChar (Char.ofNat 34) s)

/-- The source idiom `.trim_start_matches(lt).trim_end_matches(gt)` used to
strip optional angle brackets from addresses. -/
def stripAngles (s : List Char) : List Char :=
  ((s.dropWhile (fun c => c = '<')).reverse.dropWhile (fun c => c = '>')).reverse

/-- Fuelled worker for `splitInclNl` (Rust `split_inclusive` on a newline). -/
def splitInclNlFuel : Nat → List Char → List (List Char)
  | 0, s => if s = [] then [] else [s]
  | Nat.succ fuel, s =>
    match findSub ['\n'] s with
    | none => if s = [] then [] else [s]
    | some i => s.take (i + 1) :: splitInclNlFuel fuel (s.drop (i + 1))

/-- Rust `str::split_inclusive('\n')`. -/
def splitInclNl (s : List Char) : List (List Char) :=
  splitInclNlFuel (s.length + 1) s

/-- The per-line map of Rust `str::lines`: strip one trailing newline, and
when one was stripped also strip one trailing carriage return. -/
def lineMap (l : List Char) : List Char :=
  if l.getLast? = some '\n' then
    let l2 := l.dropLast
    if l2.getLast? = some '\r' then l2.dropLast else l2
  else l

/-- Rust `str::lines`. -/
def rustLines (s : List Char) : List (List Char) :=
  (splitInclNl s).map lineMap

/-- Rust `slice.join(sep)` / intercalation with a separator. -/
def joinSep (sep : List Char) : List (List Char) → List Char
  | [] => []
  | [x] => x
  | x :: y :: rest => x ++ sep ++ joinSep sep (y :: rest)

/-- UTF-8 encoding of one Unicode scalar value, as a byte list. -/
def utf8Bytes (c : Char) : List Nat :=
  let n := c.toNat
  if n < 0x80 then [n]
  else if n < 0x800 then [0xC0 + n / 64, 0x80 + n % 64]
  else if n < 0x10000 then
    [0xE0 + n / 4096, 0x80 + (n / 64) % 64, 0x80 + n % 64]
  else
    [0xF0 + n / 262144, 0x80 + (n / 4096) % 64, 0x80 + (n / 64) % 64,
     0x80 + n % 64]

/-- UTF-8 encoding of a string: the byte content of a Rust `String`. -/
def utf8Encode (s : List Char) : List Nat := (s.map utf8Bytes).flatten

/-- The replacement character U+FFFD used by `String::from_utf8_lossy`. -/
def replChar : Char := Char.ofNat 0xFFFD

/-- Fuelled worker for `utf8Lossy`.  On valid UTF-8 input it decodes exactly;
on invalid input it emits U+FFFD replacement characters (the precise
maximal-subpart grouping of the Rust implementation is approximated — no
theorem below depends on the invalid-input branches). -/
def utf8LossyFuel : Nat → List Nat → List Char
  | 0, _ => []
  | Nat.succ fuel, bs =>
    match bs with
    | [] => []
    | b :: rest =>
      if b < 0x80 then Char.ofNat b :: utf8LossyFuel fuel rest
      else if 0xC2 ≤ b ∧ b ≤ 0xDF then
        match rest with
        | b2 :: rest2 =>
          if 0x80 ≤ b2 ∧ b2 ≤ 0xBF then
            Char.ofNat ((b - 0xC0) * 64 + (b2 - 0x80)) :: utf8LossyFuel fuel rest2
          else replChar :: utf8LossyFuel fuel rest
        | [] => [replChar]
      else if 0xE0 ≤ b ∧ b ≤ 0xEF then
        match rest with
        | b2 :: b3 :: rest2 =>
          if (if b = 0xE0 then 0xA0 else 0x80) ≤ b2 ∧
              b2 ≤ (if b = 0xED then 0x9F else 0xBF) ∧
              0x80 ≤ b3 ∧ b3 ≤ 0xBF then
            Char.ofNat ((b - 0xE0) * 4096 + (b2 - 0x80) * 64 + (b3 - 0x80)) ::
              utf8LossyFuel fuel rest2
          else replChar :: utf8LossyFuel fuel rest
        | _ => [replChar]
      else if 0xF0 ≤ b ∧ b ≤ 0xF4 then
        match rest with
        | b2 :: b3 :: b4 :: rest2 =>
          if (if b = 0xF0 then 0x90 else 0x80) ≤ b2 ∧
              b2 ≤ (if b = 0xF4 then 0x8F else 0xBF) ∧
              0x80 ≤ b3 ∧ b3 ≤ 0xBF ∧ 0x80 ≤ b4 ∧ b4 ≤ 0xBF then
            Char.ofNat ((b - 0xF0) * 262144 + (b2 - 0x80) * 4096 +
                (b3 - 0x80) * 64 + (b4 - 0x80)) :: utf8LossyFuel fuel rest2
          else replChar :: utf8LossyFuel fuel rest
        | _ => [replChar]
      else replChar :: utf8LossyFuel fuel rest

/-- Rust `String::from_utf8_lossy` (see `utf8LossyFuel`). -/
def utf8Lossy (bs : List Nat) : List Char := utf8LossyFuel (bs.length + 1) bs

/-- Value of one hexadecimal digit (upper or lower case). -/
def hexDigitVal (c : Char) : Option Nat :=
  if '0' ≤ c ∧ c ≤ '9' then some (c.toNat - '0'.toNat)
  else if 'a' ≤ c ∧ c ≤ 'f' then some (c.toNat - 'a'.toNat + 10)
  else if 'A' ≤ c ∧ c ≤ 'F' then some (c.toNat - 'A'.toNat + 10)
  else none

/-- Accumulating parse of a non-empty run of hex digits. -/
def hexDigitsValAux : List Char → Nat → Option Nat
  | [], acc => some acc
  | c :: rest, acc =>
    match hexDigitVal c with
    | some v => hexDigitsValAux rest (acc * 16 + v)
    | none => none

/-- Rust `u8::from_str_radix(s, 16)`: optional sign, then one or more hex
digits, value must fit in a `u8` (so `"-0"` parses to 0 and any other
negative value fails). -/
def from_str_radix16_u8 (s : List Char) : Option Nat :=
  match s with
  | [] => none
  | '+' :: ds =>
    if ds = [] then none
    else (hexDigitsValAux ds 0).bind (fun v => if v ≤ 255 then some v else none)
  | '-' :: ds =>
    if ds = [] then none
    else (hexDigitsValAux ds 0).bind (fun v => if v = 0 then some 0 else none)
  | ds => (hexDigitsValAux ds 0).bind (fun v => if v ≤ 255 then some v else none)

/-- Value of one character of the standard base64 alphabet. -/
def b64val (c : Char) : Option Nat :=
  if 'A' ≤ c ∧ c ≤ 'Z' then some (c.toNat - 'A'.toNat)
  else if 'a' ≤ c ∧ c ≤ 'z' then some (c.toNat - 'a'.toNat + 26)
  else if '0' ≤ c ∧ c ≤ '9' then some (c.toNat - '0'.toNat + 52)
  else if c = '+' then some 62
  else if c = '/' then some 63
  else none

/-- Decode one base64 quantum of four characters.  `isLast` marks the final
quantum, the only place padding (`=`) is legal; non-canonical padding or
non-zero trailing bits are rejected, matching the crate's STANDARD engine. -/
def b64group (a b c d : Char) (isLast : Bool) : Option (List Nat) :=
  match b64val a, b64val b with
  | some va, some vb =>
    if d = '=' then
      if ¬ isLast then none
      else if c = '=' then
        if vb % 16 = 0 then some [va * 4 + vb / 16] else none
      else
        match b64val c with
        | some vc =>
          if vc % 4 = 0 then some [va * 4 + vb / 16, (vb % 16) * 16 + vc / 4]
          else none
        | none => none
    else
      match b64val c, b64val d with
      | some vc, some vd =>
        some [va * 4 + vb / 16, (vb % 16) * 16 + vc / 4, (vc % 4) * 64 + vd]
      | _, _ => none
  | _, _ => none

/-- Worker for `b64decode`: the input, consumed four characters at a time;
any input whose length is not a multiple of four is rejected (the STANDARD
engine requires canonical padding). -/
def b64decodeGroups : List Char → Option (List Nat)
  | [] => some []
  | a :: b :: c :: d :: rest =>
    match b64group a b c d (rest = []) with
    | some bytes => (b64decodeGroups rest).map (fun more => bytes ++ more)
    | none => none
  | _ => none

/-- The base64 crate's `STANDARD.decode`, on characters (the input is ASCII
whenever decoding succeeds). -/
def b64decode (s : List Char) : Option (List Nat) := b64decodeGroups s

/-- Character of the standard base64 alphabet for a 6-bit value. -/
def b64chr (n : Nat) : Char :=
  if n < 26 then Char.ofNat ('A'.toNat + n)
  else if n < 52 then Char.ofNat ('a'.toNat + n - 26)
  else if n < 62 then Char.ofNat ('0'.toNat + n - 52)
  else if n = 62 then '+'
  else '/'

/-- The base64 crate's `STANDARD.encode` with padding, on byte lists. -/
def b64encode : List Nat → List Char
  | [] => []
  | [a] => [b64chr (a / 4), b64chr (a % 4 * 16), '=', '=']
  | [a, b] => [b64chr (a / 4), b64chr (a % 4 * 16 + b / 16), b64chr (b % 16 * 4), '=']
  | a :: b :: c :: rest =>
    b64chr (a / 4) :: b64chr (a % 4 * 16 + b / 16) ::
      b64chr (b % 16 * 4 + c / 64) :: b64chr (c % 64) :: b64encode rest

/-! ## src/smtp/session.rs — the session engine -/

/-- The `SmtpSession` struct of `src/smtp/session.rs` (the shared strategy
list is not part of the transition state; `from` is a Lean keyword, hence the
field name `from_`). -/
structure SmtpSession where
  from_ : Option (List Char)
  to_ : List (List Char)
  data : Option (List Char)
  expecting_data : Bool
deriving DecidableEq

/-- `SmtpSession::reset`. -/
def resetS (s : SmtpSession) : SmtpSession :=
  { s with from_ := none, to_ := [], data := none, expecting_data := false }

/-- `SmtpSession::handle_command`, returning the mutated session and the
response string. -/
def handle_command (s : SmtpSession) (line : List Char) :
    SmtpSession × List Char :=
  match splitWhitespace line with
  | [] => (s, "500 Syntax error\r\n".data)
  | p0 :: rest =>
    let command := upper p0
    if command = "EHLO".data ∨ command = "HELO".data then
      (resetS s, "250 Hello\r\n".data)
    else if command = "MAIL".data then
      match rest with
      | [] => (s, "500 Syntax error\r\n".data)
      | p1 :: _ =>
        if startsWith (upper p1) ("FROM:".data) then
          ({ s with from_ := some (stripAngles (trim (p1.drop 5))) },
           "250 OK\r\n".data)
        else (s, "500 Syntax error\r\n".data)
    else if command = "RCPT".data then
      match s.from_ with
      | none => (s, "503 Need MAIL command first\r\n".data)
      | some _ =>
        match rest with
        | [] => (s, "500 Syntax error\r\n".data)
        | p1 :: _ =>
          if startsWith (upper p1) ("TO:".data) then
            ({ s with to_ := s.to_ ++ [stripAngles (trim (p1.drop 3))] },
             "250 OK\r\n".data)
          else (s, "500 Syntax error\r\n".data)
    else if command = "DATA".data then
      if s.from_ = none ∨ s.to_ = [] then
        (s, "503 Need MAIL and RCPT commands first\r\n".data)
      else
        ({ s with expecting_data := true },
         "354 End data with <CR><LF>.<CR><LF>\r\n".data)
    else if command = "QUIT".data then (s, "221 Bye\r\n".data)
    else if command = "RSET".data then (resetS s, "250 OK\r\n".data)
    else if command = "NOOP".data then (s, "250 OK\r\n".data)
    else (s, "500 Command not recognized\r\n".data)

/-- `extract_subject` of `src/smtp/session.rs`: the line is found by a
case-insensitive search, but the prefix is stripped case-sensitively
(`trim_start_matches("Subject:")`), exactly as the source. -/
def extract_subject (data : List Char) : List Char :=
  match (rustLines data).find?
      (fun line => startsWith (lower line) ("subject:".data)) with
  | some line => trim (trimStartMatchesStr line ("Subject:".data))
  | none => "No Subject".data

/-- The `EmailData` struct of `src/strategies/mod.rs`. -/
structure EmailData where
  from_ : List Char
  to_ : List (List Char)
  subject : List Char
  body : List Char
  raw_data : List Char
deriving DecidableEq

/-- `SmtpSession::handle_data`.  The `sinkResults` argument stands for the
per-strategy `send_email` outcomes of the dispatch loop; in the source these
are only logged, so they influence neither the state nor the response.  The
third component of the result is the `EmailData` record handed to the
strategies (`none` when `from` was never set, in which case the source skips
the dispatch loop). -/
def handle_data (s : SmtpSession) (d : List Char) (sinkResults : List Bool) :
    SmtpSession × List Char × Option EmailData :=
  let _ := sinkResults
  let s1 : SmtpSession := { s with data := some d, expecting_data := false }
  let dispatched : Option EmailData :=
    match s1.from_ with
    | some f =>
      some { from_ := f, to_ := s1.to_,
             subject := extract_subject (s1.data.getD []),
             body := s1.data.getD [], raw_data := s1.data.getD [] }
    | none => none
  (resetS s1, ("250 OK\r\n".data, dispatched))

/-- The data-phase loop of `handle_connection` in `src/smtp/mod.rs`: `ls` is
the stream of lines delivered by `read_line` (each including its terminator),
`acc` the reversed `data_lines` vector.  Returns the joined data block and
the unconsumed lines, or `none` when the stream ends before the terminator
(the source then returns without handling the data). -/
def dataPhase : List (List Char) → List (List Char) →
    Option (List Char × List (List Char))
  | [], _ => none
  | line :: rest, acc =>
    if trim line = ['.'] then some (acc.reverse.flatten, rest)
    else if startsWith line ("..".data) then dataPhase rest (line.drop 1 :: acc)
    else dataPhase rest (line :: acc)

/-! ## src/strategies/resend.rs — the MIME decoder -/

/-- The `Attachment` struct of `src/strategies/resend.rs`. -/
structure Attachment where
  filename : List Char
  content : List Char
  content_type : Option (List Char)
deriving DecidableEq

/-- `split_headers_body`: the first blank line, CRLF-CRLF preferred over
LF-LF. -/
def split_headers_body (raw_data : List Char) :
    Option (List Char × List Char) :=
  match findSub ("\r\n\r\n".data) raw_data with
  | some pos => some (raw_data.take pos, raw_data.drop (pos + 4))
  | none =>
    match findSub ("\n\n".data) raw_data with
    | some pos => some (raw_data.take pos, raw_data.drop (pos + 2))
    | none => none

/-- `get_header`: first line whose lowercase form starts with `name:`, value
taken after the first colon and trimmed; absent headers give the empty
string. -/
def get_header (headers name : List Char) : List Char :=
  match (rustLines headers).find?
      (fun line => startsWith (lower line) (lower name ++ [':'])) with
  | some line => trim ((afterFirstChar ':' line).getD [])
  | none => []

/-- The `=XX` branch of `decode_quoted_printable`: take (up to) two
characters; on a valid hex pair push that byte as a char, otherwise push the
`=` and the taken characters literally.  `cont` continues the main scan. -/
def qpHexBlock (cont : List Char → List Char) (rest2 : List Char) :
    List Char :=
  let hex := rest2.take 2
  if hex.length = 2 then
    match from_str_radix16_u8 hex with
    | some b => Char.ofNat b :: cont (rest2.drop 2)
    | none => '=' :: (hex ++ cont (rest2.drop 2))
  else '=' :: (hex ++ cont (rest2.drop 2))

/-- Fuelled worker for `decode_quoted_printable`.  Note the source's handling
of `=` followed by a carriage return without a line feed: the carriage return
has already been consumed by the peek-and-next, so the hex scan starts after
it. -/
def decodeQPFuel : Nat → List Char → List Char
  | 0, s => s
  | Nat.succ fuel, s =>
    match s with
    | [] => []
    | c :: rest =>
      if c = '=' then
        match rest with
        | '\r' :: '\n' :: rest2 => decodeQPFuel fuel rest2
        | '\r' :: rest2 => qpHexBlock (decodeQPFuel fuel) rest2
        | '\n' :: rest2 => decodeQPFuel fuel rest2
        | rest2 => qpHexBlock (decodeQPFuel fuel) rest2
      else c :: decodeQPFuel fuel rest

/-- `decode_quoted_printable` of `src/strategies/resend.rs`. -/
def decode_quoted_printable (input : List Char) : List Char :=
  decodeQPFuel (input.length + 1) input

/-- The source idiom `body.replace(crlfChars, "")`: remove every carriage
return and line feed. -/
def stripCrLf (body : List Char) : List Char :=
  body.filter (fun c => ¬ (c = '\r' ∨ c = '\n'))

/-- `decode_body`: dispatch on the lowercased Content-Transfer-Encoding. -/
def decode_body (body headers : List Char) : List Char :=
  let encoding := lower (get_header headers ("content-transfer-encoding".data))
  if encoding = "quoted-printable".data then decode_quoted_printable body
  else if encoding = "base64".data then
    match b64decode (stripCrLf body) with
    | some decoded => utf8Lossy decoded
    | none => body
  else body

/-- `extract_filename`: `filename=` parameter of Content-Disposition first,
then the `name=` parameter of the (lowercased) Content-Type. -/
def extract_filename (headers content_type : List Char) : Option (List Char) :=
  match nth1 (splitOnSub (get_header headers ("content-disposition".data))
      ("filename=".data)) with
  | some filename => some (trimMatchesQuotes (trim filename))
  | none =>
    match nth1 (splitOnSub content_type ("name=".data)) with
    | some name => some (trimMatchesQuotes (trim name))
    | none => none

/-- Accumulator of the part loop in `parse_multipart` (the three `Vec`s). -/
structure MPAcc where
  text_parts : List (List Char)
  html_parts : List (List Char)
  attachments : List Attachment
deriving DecidableEq

/-- One iteration of the part loop of `parse_multipart`. -/
def mpStep (acc : MPAcc) (part0 : List Char) : MPAcc :=
  let part := trim part0
  if part = [] ∨ part = "--".data then acc
  else
    match split_headers_body part with
    | none => acc
    | some (part_headers, part_body) =>
      let part_ct := lower (get_header part_headers ("content-type".data))
      let decoded := decode_body part_body part_headers
      let is_attachment :=
        containsSub (lower part_headers)
            ("content-disposition: attachment".data)
          || containsSub part_ct ("name=".data)
      if is_attachment
          || (!containsSub part_ct ("text/plain".data)
              && !containsSub part_ct ("text/html".data)) then
        match extract_filename part_headers part_ct with
        | some filename =>
          { acc with attachments := acc.attachments ++
              [{ filename := filename,
                 content := b64encode (utf8Encode decoded),
                 content_type :=
                   some (get_header part_headers ("content-type".data)) }] }
        | none => acc
      else if containsSub part_ct ("text/html".data) then
        { acc with html_parts := acc.html_parts ++ [decoded] }
      else if containsSub part_ct ("text/plain".data) then
        { acc with text_parts := acc.text_parts ++ [decoded] }
      else acc

/-- `parse_multipart` of `src/strategies/resend.rs`. -/
def parse_multipart (body headers : List Char) :
    Option (List Char) × Option (List Char) × Option (List Attachment) :=
  let boundary :=
    (nth1 (splitOnSub (get_header headers ("content-type".data))
        ("boundary=".data))).map
      (fun b => "--".data ++ trimMatchesQuotes (trim b))
  match boundary with
  | none => (some body, none, none)
  | some boundary =>
    let acc := (splitOnSub body boundary).foldl mpStep ⟨[], [], []⟩
    (if acc.text_parts = [] then none
     else some (joinSep ("\n\n".data) acc.text_parts),
     if acc.html_parts = [] then none
     else some (joinSep ("<br><br>".data) acc.html_parts),
     if acc.attachments = [] then none else some acc.attachments)

/-- `parse_email` of `src/strategies/resend.rs`. -/
def parse_email (raw_data : List Char) :
    Option (List Char) × Option (List Char) × Option (List Attachment) :=
  match split_headers_body raw_data with
  | none => (some raw_data, none, none)
  | some (headers, body) =>
    let content_type := lower (get_header headers ("content-type".data))
    if startsWith content_type ("multipart/".data) then
      parse_multipart body headers
    else
      let decoded_body := decode_body body headers
      if containsSub content_type ("text/html".data) then
        (none, some decoded_body, none)
      else (some decoded_body, none, none)

/-! ## Helper lemmas -/

/-- A string with an empty trim is all whitespace. -/
theorem all_ws_of_trim_nil : ∀ {l : List Char}, trim l = [] →
    ∀ c ∈ l, c.isWhitespace = true := by
  intro l
  induction l with
  | nil => intro _ c hc; cases hc
  | cons a rest ih =>
    intro h c hc
    by_cases ha : a.isWhitespace = true
    · have hstep : trim (a :: rest) = trim rest := by
        simp [trim, List.dropWhile_cons, ha]
      rcases List.mem_cons.mp hc with hc | hc
      · exact hc ▸ ha
      · exact ih (hstep ▸ h) c hc
    · exfalso
      have hdw : (a :: rest).dropWhile Char.isWhitespace = a :: rest := by
        simp [List.dropWhile_cons, ha]
      have h2 : trimEndWs (a :: rest) = [] := by rw [trim, hdw] at h; exact h
      have h3 : (a :: rest).reverse.dropWhile Char.isWhitespace = [] := by
        have h4 := congrArg List.reverse h2
        simpa [trimEndWs] using h4
      exact ha (List.dropWhile_eq_nil_iff.mp h3 a (by simp))

/-- `splitWsAux` of an all-whitespace string with empty accumulator. -/
theorem splitWsAux_nil_of_all_ws : ∀ {l : List Char},
    (∀ c ∈ l, c.isWhitespace = true) → splitWsAux l [] = [] := by
  intro l
  induction l with
  | nil => intro _; rfl
  | cons a rest ih =>
    intro h
    have ha := h a (by simp)
    simp only [splitWsAux, ha, if_pos rfl]
    exact ih (fun c hc => h c (by simp [hc]))

/-- A line that is empty after trimming splits into no whitespace tokens. -/
theorem splitWhitespace_nil_of_trim_nil {l : List Char} (h : trim l = []) :
    splitWhitespace l = [] :=
  splitWsAux_nil_of_all_ws (all_ws_of_trim_nil h)

/-- If `pat` does not occur in `s`, `findSub` reports no occurrence. -/
theorem findSub_none_of_not_contains : ∀ {s pat : List Char},
    containsSub s pat = false → findSub pat s = none := by
  intro s
  induction s with
  | nil =>
    intro pat h
    simp only [containsSub, decide_eq_false_iff_not] at h
    simp [findSub, h]
  | cons c rest ih =>
    intro pat h
    simp only [containsSub, Bool.or_eq_false_iff] at h
    simp [findSub, h.1, ih h.2]

/-- A string not containing the pattern splits into a single piece. -/
theorem splitOnSub_single {s pat : List Char}
    (h : containsSub s pat = false) : splitOnSub s pat = [s] := by
  simp [splitOnSub, splitOnSubFuel, findSub_none_of_not_contains h]

/-! ## Spec-side definitions for the refinement claims -/

/-- Dot-unstuffing of one data line, as the spec words it: a line beginning
with two dots has exactly one leading dot removed, all other lines pass
through unchanged. -/
def unstuffLine (l : List Char) : List Char :=
  if startsWith l ("..".data) then l.drop 1 else l

/-- A data line whose trimmed content is exactly a lone dot (the data-phase
terminator of the spec). -/
def isEndMarker (l : List Char) : Bool := trim l = ['.']

/-- Spec-side description of the data phase: every line strictly before the
first lone-dot line is kept (dot-unstuffed, terminators included) and
concatenated into the body; the lone-dot line itself is excluded and ends the
phase; if the stream ends with no lone-dot line the phase never completes. -/
def dataPhaseSpec (ls : List (List Char)) :
    Option (List Char × List (List Char)) :=
  match ls.dropWhile (fun l => !isEndMarker l) with
  | [] => none
  | _ :: rest =>
    some (((ls.takeWhile (fun l => !isEndMarker l)).map unstuffLine).flatten,
      rest)

/-! ## Theorems for the claims -/

/-- Generalisation of claim C2 over the line accumulator. -/
theorem dataPhase_aux (ls : List (List Char)) : ∀ acc,
    dataPhase ls acc =
      (dataPhaseSpec ls).map (fun p => (acc.reverse.flatten ++ p.1, p.2)) := by
  induction ls with
  | nil => intro acc; simp [dataPhase, dataPhaseSpec]
  | cons l rest ih =>
    intro acc
    by_cases hterm : trim l = ['.']
    · have he : isEndMarker l = true := by simp [isEndMarker, hterm]
      simp [dataPhase, dataPhaseSpec, hterm, he]
    · have he : isEndMarker l = false := by
        simp [isEndMarker]; exact hterm
      by_cases hdots : startsWith l ("..".data) = true
      · have hstep : dataPhase (l :: rest) acc =
            dataPhase rest (l.drop 1 :: acc) := by
          simp [dataPhase, hterm, hdots]
        rw [hstep, ih (l.drop 1 :: acc)]
        simp only [dataPhaseSpec, List.dropWhile_cons, List.takeWhile_cons,
          he, Bool.not_false, if_pos]
        cases hd : rest.dropWhile (fun l => !isEndMarker l) with
        | nil => simp
        | cons x xs =>
          simp [unstuffLine, hdots, List.append_assoc]
      · have hstep : dataPhase (l :: rest) acc =
            dataPhase rest (l :: acc) := by
          simp [dataPhase, hterm, hdots]
        rw [hstep, ih (l :: acc)]
        simp only [dataPhaseSpec, List.dropWhile_cons, List.takeWhile_cons,
          he, Bool.not_false, if_pos]
        cases hd : rest.dropWhile (fun l => !isEndMarker l) with
        | nil => simp
        | cons x xs =>
          simp [unstuffLine, hdots, List.append_assoc]

/-- C2: the data-phase loop of `handle_connection` stores exactly the lines
before the first line whose trimmed content is `.` (that line excluded),
each line beginning with two dots losing exactly one leading dot, every
other line kept unchanged with its terminator; the lone-dot terminator is
the only excluded line.  The second conjunct exercises the dot-unstuffing on
a concrete stream. -/
theorem claim_C2_data_phase (ls : List (List Char)) :
    dataPhase ls [] = dataPhaseSpec ls ∧
    dataPhase [("..x\r\n".data), (".\r\n".data), ("y\r\n".data)] [] =
      some (".x\r\n".data, [("y\r\n".data)]) := by
  constructor
  · rw [dataPhase_aux ls []]
    cases h : dataPhaseSpec ls with
    | none => simp
    | some p => simp
  · decide

/-- C3 (evaluation of the code at the failing input): `extract_subject`
finds a lowercase `subject:` line case-insensitively but strips the
`"Subject:"` prefix case-sensitively, so the lowercase header yields the
whole line instead of the remainder `Hi`; the exactly-cased header works. -/
theorem claim_C3_subject_case_bug :
    extract_subject ("subject: Hi".data) = ("subject: Hi".data) ∧
    extract_subject ("subject: Hi".data) ≠ ("Hi".data) ∧
    extract_subject ("From: x\r\nSubject: Hi\r\n\r\nbody".data) = ("Hi".data) := by
  refine ⟨by decide, by decide, by decide⟩

/-- C4 (evaluation of the code at the failing input): the quoted-printable
decoder pushes each decoded byte as a Unicode scalar (`byte as char`), so
`Caf=C3=A9` becomes the two characters U+00C3 and U+00A9, whose UTF-8 byte
content is `C3 83 C2 A9` — not the bytes `C3 A9` placed verbatim. -/
theorem claim_C4_qp_not_bytewise :
    decode_quoted_printable ("Caf=C3=A9".data) =
      ("Caf".data ++ [Char.ofNat 0xC3, Char.ofNat 0xA9]) ∧
    utf8Encode (decode_quoted_printable ("Caf=C3=A9".data)) =
      [0x43, 0x61, 0x66, 0xC3, 0x83, 0xC2, 0xA9] ∧
    utf8Encode (decode_quoted_printable ("Caf=C3=A9".data)) ≠
      (utf8Encode ("Caf".data) ++ [0xC3, 0xA9]) := by
  refine ⟨by decide, by decide, by decide⟩

/-- C5: a `multipart/*` message whose Content-Type has no `boundary=`
parameter decodes to the whole body as plain text, with no html part, no
attachments and no failure. -/
theorem claim_C5_missing_boundary (raw headers body : List Char)
    (hsplit : split_headers_body raw = some (headers, body))
    (hmp : startsWith (lower (get_header headers ("content-type".data)))
      ("multipart/".data) = true)
    (hnb : containsSub (get_header headers ("content-type".data))
      ("boundary=".data) = false) :
    parse_email raw = (some body, none, none) := by
  have hsingle := splitOnSub_single hnb
  simp [parse_email, hsplit, hmp, parse_multipart, hsingle, nth1]

/-- Witness for C5 at a concrete boundary-less multipart message. -/
theorem claim_C5_missing_boundary_witness :
    parse_email ("Content-Type: multipart/mixed\r\n\r\nBody here".data) =
      (some ("Body here".data), none, none) :=
  claim_C5_missing_boundary ("Content-Type: multipart/mixed\r\n\r\nBody here".data)
    ("Content-Type: multipart/mixed".data) ("Body here".data)
    (by decide) (by decide) (by decide)

/-- C6: with a (case-insensitive) `base64` transfer encoding, `decode_body`
strips every carriage return and line feed and then base64-decodes; a failed
decode returns the original body unchanged, a successful decode returns the
lossily-UTF-8-decoded bytes (so stripping happens before decoding). -/
theorem claim_C6_base64_fallback (body headers : List Char)
    (henc : lower (get_header headers ("content-transfer-encoding".data)) =
      ("base64".data)) :
    (b64decode (stripCrLf body) = none → decode_body body headers = body) ∧
    (∀ bs, b64decode (stripCrLf body) = some bs →
      decode_body body headers = utf8Lossy bs) := by
  constructor
  · intro hfail
    simp [decode_body, henc, hfail]
  · intro bs hok
    simp [decode_body, henc, hok]

/-- Witness for C6: an invalid base64 body is returned unchanged, and a valid
body containing a CRLF still decodes (the CRLF is stripped first). -/
theorem claim_C6_base64_fallback_witness :
    decode_body ("!!!".data) ("Content-Transfer-Encoding: base64".data) =
      ("!!!".data) ∧
    decode_body ("aGk=\r\n".data) ("Content-Transfer-Encoding: base64".data) =
      ("hi".data) := by
  constructor
  · exact (claim_C6_base64_fallback ("!!!".data)
      ("Content-Transfer-Encoding: base64".data) (by decide)).1 (by decide)
  · have h := (claim_C6_base64_fallback ("aGk=\r\n".data)
      ("Content-Transfer-Encoding: base64".data) (by decide)).2
      [104, 105] (by decide)
    rw [h]; decide

/-- C7: `handle_data` always resets the whole session (no sender, no
recipients, no stored data, data-mode flag off) and responds `250 OK`,
whatever the per-sink outcomes are; when `from` was never set, no record is
dispatched but the reset and the 250 still happen. -/
theorem claim_C7_always_250 (s : SmtpSession) (d : List Char)
    (sinkResults : List Bool) :
    (handle_data s d sinkResults).1 = ⟨none, [], none, false⟩ ∧
    (handle_data s d sinkResults).2.1 = "250 OK\r\n".data ∧
    (s.from_ = none → (handle_data s d sinkResults).2.2 = none) := by
  refine ⟨rfl, rfl, ?_⟩
  intro h
  simp [handle_data, h]

/-- Witness for C7 at a concrete from-less session with failing sinks. -/
theorem claim_C7_always_250_witness :
    (handle_data ⟨none, [("b@y.com".data)], none, true⟩ ("Subject: x\r\n".data)
      [false, false]).1 = ⟨none, [], none, false⟩ ∧
    (handle_data ⟨none, [("b@y.com".data)], none, true⟩ ("Subject: x\r\n".data)
      [false, false]).2.1 = "250 OK\r\n".data ∧
    (handle_data ⟨none, [("b@y.com".data)], none, true⟩ ("Subject: x\r\n".data)
      [false, false]).2.2 = none :=
  ⟨(claim_C7_always_250 _ _ _).1, (claim_C7_always_250 _ _ _).2.1,
   (claim_C7_always_250 ⟨none, [("b@y.com".data)], none, true⟩
     ("Subject: x\r\n".data) [false, false]).2.2 rfl⟩

/-- C10: a MAIL command whose second whitespace token uppercases to a string
starting with `FROM:` stores, as the sender, exactly the characters of that
token after the five-character prefix (trimmed, angle brackets stripped) and
answers 250 — any address placed in a later token is discarded. -/
theorem claim_C10_mail_from_space (s : SmtpSession) (line p0 p1 : List Char)
    (rest : List (List Char))
    (hsplit : splitWhitespace line = p0 :: p1 :: rest)
    (hcmd : upper p0 = "MAIL".data)
    (hfrom : startsWith (upper p1) ("FROM:".data) = true) :
    handle_command s line =
      ({ s with from_ := some (stripAngles (trim (p1.drop 5))) },
       "250 OK\r\n".data) := by
  simp [handle_command, hsplit, hcmd, hfrom]

/-- Witness for C10: `MAIL FROM: <a@x.com>` (space after the colon) yields
250 and an empty sender, the address token being discarded. -/
theorem claim_C10_mail_from_space_witness :
    handle_command ⟨none, [], none, false⟩ ("MAIL FROM: <a@x.com>".data) =
      (⟨some [], [], none, false⟩, "250 OK\r\n".data) := by
  have h := claim_C10_mail_from_space ⟨none, [], none, false⟩
    ("MAIL FROM: <a@x.com>".data) ("MAIL".data) ("FROM:".data)
    ([("<a@x.com>".data)]) (by decide) (by decide) (by decide)
  rw [h]; decide

/-- C1: `handle_command` answers 503 to RCPT without a sender, 503 to DATA
without a sender or with no recipients, 500 to a command whose first
whitespace token is not a recognized verb (matched case-insensitively), and
500 to a command line that is empty after trimming; in each of these cases
the session (envelope, stored data and data-mode flag) is unchanged. -/
theorem claim_C1_command_rejections (s : SmtpSession) (line : List Char) :
    (∀ p0 rest, splitWhitespace line = p0 :: rest → upper p0 = "RCPT".data →
      s.from_ = none →
      startsWith (handle_command s line).2 ("503".data) = true ∧
      (handle_command s line).1 = s) ∧
    (∀ p0 rest, splitWhitespace line = p0 :: rest → upper p0 = "DATA".data →
      (s.from_ = none ∨ s.to_ = []) →
      startsWith (handle_command s line).2 ("503".data) = true ∧
      (handle_command s line).1 = s) ∧
    (∀ p0 rest, splitWhitespace line = p0 :: rest →
      upper p0 ∉ [("EHLO".data), ("HELO".data), ("MAIL".data), ("RCPT".data),
        ("DATA".data), ("RSET".data), ("NOOP".data), ("QUIT".data)] →
      startsWith (handle_command s line).2 ("500".data) = true ∧
      (handle_command s line).1 = s) ∧
    (trim line = [] →
      startsWith (handle_command s line).2 ("500".data) = true ∧
      (handle_command s line).1 = s) := by
  refine ⟨?_, ?_, ?_, ?_⟩
  · intro p0 rest hsplit hcmd hfrom
    have h : handle_command s line = (s, "503 Need MAIL command first\r\n".data) := by
      simp [handle_command, hsplit, hcmd, hfrom]
    constructor
    · rw [h]
      show startsWith ("503 Need MAIL command first\r\n".data) ("503".data) = true
      decide
    · rw [h]
  · intro p0 rest hsplit hcmd hd
    have h : handle_command s line =
        (s, "503 Need MAIL and RCPT commands first\r\n".data) := by
      rcases hd with hd | hd
      · simp [handle_command, hsplit, hcmd, hd]
      · simp [handle_command, hsplit, hcmd, hd]
    constructor
    · rw [h]
      show startsWith ("503 Need MAIL and RCPT commands first\r\n".data)
        ("503".data) = true
      decide
    · rw [h]
  · intro p0 rest hsplit hni
    simp only [List.mem_cons, List.mem_singleton, not_or] at hni
    obtain ⟨h1, h2, h3, h4, h5, h6, h7, h8⟩ := hni
    have h : handle_command s line =
        (s, "500 Command not recognized\r\n".data) := by
      simp [handle_command, hsplit, h1, h2, h3, h4, h5, h6, h7, h8]
    constructor
    · rw [h]
      show startsWith ("500 Command not recognized\r\n".data) ("500".data) = true
      decide
    · rw [h]
  · intro htrim
    have hsp := splitWhitespace_nil_of_trim_nil htrim
    have h : handle_command s line = (s, "500 Syntax error\r\n".data) := by
      simp [handle_command, hsp]
    constructor
    · rw [h]
      show startsWith ("500 Syntax error\r\n".data) ("500".data) = true
      decide
    · rw [h]

/-- Witness for C1: a fresh session answering RCPT, DATA, an unknown verb
and an all-whitespace line. -/
theorem claim_C1_command_rejections_witness :
    (startsWith (handle_command ⟨none, [], none, false⟩
        ("RCPT TO:<b@y.com>".data)).2 ("503".data) = true ∧
      (handle_command ⟨none, [], none, false⟩
        ("RCPT TO:<b@y.com>".data)).1 = ⟨none, [], none, false⟩) ∧
    (startsWith (handle_command ⟨none, [], none, false⟩
        ("DATA".data)).2 ("503".data) = true ∧
      (handle_command ⟨none, [], none, false⟩
        ("DATA".data)).1 = ⟨none, [], none, false⟩) ∧
    (startsWith (handle_command ⟨none, [], none, false⟩
        ("FOO bar".data)).2 ("500".data) = true ∧
      (handle_command ⟨none, [], none, false⟩
        ("FOO bar".data)).1 = ⟨none, [], none, false⟩) ∧
    (startsWith (handle_command ⟨none, [], none, false⟩
        ("   ".data)).2 ("500".data) = true ∧
      (handle_command ⟨none, [], none, false⟩
        ("   ".data)).1 = ⟨none, [], none, false⟩) :=
  ⟨(claim_C1_command_rejections ⟨none, [], none, false⟩ _).1
      ("RCPT".data) ([("TO:<b@y.com>".data)]) (by decide) (by decide) rfl,
   (claim_C1_command_rejections ⟨none, [], none, false⟩ _).2.1
      ("DATA".data) [] (by decide) (by decide) (Or.inl rfl),
   (claim_C1_command_rejections ⟨none, [], none, false⟩ _).2.2.1
      ("FOO".data) ([("bar".data)]) (by decide) (by decide),
   (claim_C1_command_rejections ⟨none, [], none, false⟩ _).2.2.2 (by decide)⟩

/-- Multipart message with boundary XYZ, one text/plain part and one
text/html part (claim C8). -/
def mixedMsg : List Char :=
  ("From: a@x.com\r\nContent-Type: multipart/mixed; boundary=XYZ\r\n\r\n--XYZ\r\nContent-Type: text/plain\r\n\r\nhello\r\n--XYZ\r\nContent-Type: text/html\r\n\r\n<b>hi</b>\r\n--XYZ--\r\n").data

/-- Multipart message with two text/plain and two text/html parts (claim
C8). -/
def altMsg : List Char :=
  ("Content-Type: multipart/alternative; boundary=B\r\n\r\n--B\r\nContent-Type: text/plain\r\n\r\nhello\r\n--B\r\nContent-Type: text/plain\r\n\r\nworld\r\n--B\r\nContent-Type: text/html\r\n\r\n<b>a</b>\r\n--B\r\nContent-Type: text/html\r\n\r\n<b>b</b>\r\n--B--\r\n").data

/-- Multipart message with a single text/plain part (claim C8). -/
def textOnlyMsg : List Char :=
  ("Content-Type: multipart/mixed; boundary=B\r\n\r\n--B\r\nContent-Type: text/plain\r\n\r\nhello\r\n--B--\r\n").data

/-- C8: the XYZ round trip gives text `hello`, html `<b>hi</b>` and no
attachments; two plain parts are joined with a blank line, two html parts
with `<br><br>`; categories with no parts give `none` (here html and
attachments). -/
theorem claim_C8_multipart_join :
    parse_email mixedMsg =
      (some ("hello".data), some ("<b>hi</b>".data), none) ∧
    parse_email altMsg =
      (some ("hello\n\nworld".data),
       some ("<b>a</b><br><br><b>b</b>".data), none) ∧
    parse_email textOnlyMsg = (some ("hello".data), none, none) :=
  ⟨by decide, by decide, by decide⟩

/-- A multipart segment whose Content-Disposition value contains
`attachment` but with two spaces after the header colon (claim C9). -/
def twoSpacePart : List Char :=
  ("\r\nContent-Disposition:  attachment; filename=a.txt\r\nContent-Type: text/plain\r\n\r\nbody\r\n").data

/-- C9 counterexample: for this part the Content-Disposition header value
does contain `attachment` (so the claim classifies it as an attachment), yet
the part loop files its body under the plain-text parts and adds no
attachment — the code looks for the literal substring
`content-disposition: attachment` with exactly one space, not at the header
value. -/
theorem claim_C9_counterexample :
    (split_headers_body (trim twoSpacePart)).map
        (fun p => containsSub (get_header p.1 ("content-disposition".data))
          ("attachment".data)) = some true ∧
    (mpStep ⟨[], [], []⟩ twoSpacePart).attachments = [] ∧
    (mpStep ⟨[], [], []⟩ twoSpacePart).text_parts = [("body".data)] :=
  ⟨by decide, by decide, by decide⟩

/-- C9 (amended): a part is classified as an attachment exactly when the
lowercased part-header block contains the literal substring
`content-disposition: attachment`, or its Content-Type contains `name=`, or
its Content-Type contains neither `text/plain` nor `text/html`; a part so
classified with no filename from `filename=`/`name=` is silently dropped,
and a part not so classified never contributes an attachment. -/
theorem claim_C9_attachment_classification (acc : MPAcc)
    (part0 part_headers part_body pct : List Char)
    (hsplit : split_headers_body (trim part0) = some (part_headers, part_body))
    (hne1 : trim part0 ≠ [])
    (hne2 : trim part0 ≠ "--".data)
    (hct : pct = lower (get_header part_headers ("content-type".data))) :
    ((((containsSub (lower part_headers)
            ("content-disposition: attachment".data)
          || containsSub pct ("name=".data))
          || (!containsSub pct ("text/plain".data)
              && !containsSub pct ("text/html".data))) = true) →
      (extract_filename part_headers pct = none → mpStep acc part0 = acc) ∧
      (∀ f, extract_filename part_headers pct = some f →
        mpStep acc part0 = { acc with attachments := acc.attachments ++
          [{ filename := f,
             content :=
               b64encode (utf8Encode (decode_body part_body part_headers)),
             content_type :=
               some (get_header part_headers ("content-type".data)) }] })) ∧
    ((((containsSub (lower part_headers)
            ("content-disposition: attachment".data)
          || containsSub pct ("name=".data))
          || (!containsSub pct ("text/plain".data)
              && !containsSub pct ("text/html".data))) = false) →
      (mpStep acc part0).attachments = acc.attachments) := by
  subst hct
  have hor : ¬ (trim part0 = [] ∨ trim part0 = "--".data) := by
    rintro (h | h)
    · exact hne1 h
    · exact hne2 h
  constructor
  · intro hatt
    constructor
    · intro hnone
      simp [mpStep, hor, hsplit, hatt, hnone]
    · intro f hf
      simp [mpStep, hor, hsplit, hatt, hf]
  · intro hnatt
    rw [Bool.or_eq_false_iff] at hnatt
    obtain ⟨hAB, hC⟩ := hnatt
    rw [Bool.or_eq_false_iff] at hAB
    obtain ⟨hA, hB⟩ := hAB
    by_cases hh : containsSub
        (lower (get_header part_headers ("content-type".data)))
        ("text/html".data) = true
    · simp [mpStep, hor, hsplit, hA, hB, hC, hh]
    · by_cases hp : containsSub
          (lower (get_header part_headers ("content-type".data)))
          ("text/plain".data) = true
      · simp [mpStep, hor, hsplit, hA, hB, hC, hh, hp]
      · exfalso
        rw [Bool.not_eq_true] at hh hp
        rw [hh, hp] at hC
        simp at hC

/-- An attachment part carrying a quoted filename (claim C9 witness). -/
def pdfPart : List Char :=
  ("\r\nContent-Type: application/pdf\r\nContent-Disposition: attachment; filename=\"doc.pdf\"\r\n\r\nPDFDATA\r\n").data

/-- The header block of `pdfPart` (claim C9 witness). -/
def pdfPartHeaders : List Char :=
  ("Content-Type: application/pdf\r\nContent-Disposition: attachment; filename=\"doc.pdf\"").data

/-- An attachment-classified part with no determinable filename (claim C9
witness). -/
def noNamePart : List Char :=
  ("\r\nContent-Type: application/pdf\r\n\r\nXX\r\n").data

/-- A plain-text part, not classified as an attachment (claim C9 witness). -/
def plainPart : List Char :=
  ("\r\nContent-Type: text/plain\r\n\r\nhey\r\n").data

/-- Witness for the amended C9: the filename-less attachment part is dropped
whole, the named pdf part becomes the single attachment, and the text part
adds no attachment. -/
theorem claim_C9_attachment_classification_witness :
    mpStep ⟨[], [], []⟩ noNamePart = ⟨[], [], []⟩ ∧
    mpStep ⟨[], [], []⟩ pdfPart =
      ⟨[], [], [⟨("doc.pdf".data), ("UERGREFUQQ==".data),
        some ("application/pdf".data)⟩]⟩ ∧
    (mpStep ⟨[], [], []⟩ plainPart).attachments = [] := by
  refine ⟨?_, ?_, ?_⟩
  · exact ((claim_C9_attachment_classification ⟨[], [], []⟩ noNamePart
      ("Content-Type: application/pdf".data) ("XX".data) _
      (by decide) (by decide) (by decide) rfl).1 (by decide)).1 (by decide)
  · have h := ((claim_C9_attachment_classification ⟨[], [], []⟩ pdfPart
      pdfPartHeaders ("PDFDATA".data) _
      (by decide) (by decide) (by decide) rfl).1 (by decide)).2
      ("doc.pdf".data) (by decide)
    rw [h]; decide
  · exact (claim_C9_attachment_classification ⟨[], [], []⟩ plainPart
      ("Content-Type: text/plain".data) ("hey".data) _
      (by decide) (by decide) (by decide) rfl).2 (by decide)

end SmtpRelay
